import Mathlib

/-!
Shallow embedding of the `turing-machine` repository (src/bit_vec.rs,
src/lib.rs) and verification of its specification claims.

Modelling conventions:
* `usize` is modelled as `Nat`; the machine word width is fixed at 64 bits
  (`USIZE_BIT_SIZE`).  The only place where `usize` overflow semantics
  matter is `move_head`, where the source computes
  `(head as isize + direction as isize) as usize`: the two casts
  reinterpret two's-complement bits, so the net effect is addition of the
  direction's offset modulo 2^64 (with `Left = -1` contributing
  `2^64 - 1`).
* Rust panics (a failed `assert!`, `Option::unwrap` on `None`, indexing a
  `Vec` out of bounds, and the `usize` subtraction underflow inside
  `set_bit`/`unset_bit` when the bit index reaches the word width) are
  modelled by `Option`/dedicated result constructors returning `none` /
  `RunResult.panic`.
* `HashMap` is modelled by its observable lookup semantics as a function
  into `Option`; `insert` is pointwise functional update.
* The `run` loop may diverge (Turing-machine semantics), so it is given
  explicit fuel; exhausting the fuel yields the distinguished
  `RunResult.timeout`, which no claim identifies with a source outcome.
* Console printing (`print_tape`) and the never-read `__visible_area`
  field are elided: they do not affect machine state.
-/

namespace TMSpec

/-- `usize::BITS` on a 64-bit target (src/bit_vec.rs). -/
def USIZE_BIT_SIZE : Nat := 64

/-- Number of words in the tape vector (src/lib.rs). -/
def DEFAULT_TAPE_SIZE : Nat := 2

/-- src/bit_vec.rs: `(cell >> (USIZE_BIT_SIZE - index - 1)) & 1`. -/
def get_bit (cell : Nat) (index : Nat) : Nat :=
  (cell >>> (USIZE_BIT_SIZE - index - 1)) &&& 1

/-- src/bit_vec.rs: `*cell |= 1 << (USIZE_BIT_SIZE - index - 1)`. -/
def set_bit (cell : Nat) (index : Nat) : Nat :=
  cell ||| (1 <<< (USIZE_BIT_SIZE - index - 1))

/-- Bitwise NOT on a 64-bit word: `!x` on `usize`. -/
def usizeNot (x : Nat) : Nat := (2 ^ USIZE_BIT_SIZE - 1) ^^^ x

/-- src/bit_vec.rs: `*cell &= !(1 << (USIZE_BIT_SIZE - index - 1))`. -/
def unset_bit (cell : Nat) (index : Nat) : Nat :=
  cell &&& usizeNot (1 <<< (USIZE_BIT_SIZE - index - 1))

/-- `Direction` enum with discriminants `Left = -1`, `Right = 1`, `Stay = 0`. -/
inductive Direction
  | Left
  | Right
  | Stay
deriving DecidableEq

/-- The direction's discriminant cast `as isize as usize`, i.e. reduced
modulo 2^64 (`Left = -1` becomes `2^64 - 1`). -/
def Direction.offset : Direction → Nat
  | .Left => 2 ^ USIZE_BIT_SIZE - 1
  | .Right => 1
  | .Stay => 0

/-- Binary tape alphabet. -/
inductive Symbol
  | Zero
  | One
deriving DecidableEq

/-- A program state; identity is the `u32` identifier (modelled as `Nat`;
no arithmetic is ever performed on identifiers). -/
structure ProgramState where
  id : Nat
deriving DecidableEq

/-- Machine status: a running program state or a terminal sentinel. -/
inductive State
  | ProgramState (s : ProgramState)
  | Termination
  | Halt
deriving DecidableEq

/-- A transition rule (src/lib.rs `TransitionRule`). -/
structure TransitionRule where
  from_state : ProgramState
  from_symbol : Symbol
  to_state : State
  new_symbol : Symbol
  head_move_dir : Direction
deriving DecidableEq

/-- The machine.  `states` and `transition_table` model the two `HashMap`s
by their lookup functions; the never-read `__visible_area` is elided. -/
structure TuringMachine where
  tape : List Nat
  head : Nat
  initial_state : Option Nat
  states : Nat → Option ProgramState
  transition_table : Nat → Option (Symbol → Option TransitionRule)

/-- `TuringMachine::new()`. -/
def TuringMachine.new : TuringMachine :=
  { tape := List.replicate DEFAULT_TAPE_SIZE 0
    head := DEFAULT_TAPE_SIZE / 2 * USIZE_BIT_SIZE
    initial_state := none
    states := fun _ => none
    transition_table := fun _ => none }

/-- `self.states.insert(state.id, *state)`. -/
def insertState (st : Nat → Option ProgramState) (s : ProgramState) :
    Nat → Option ProgramState :=
  fun k => if k = s.id then some s else st k

/-- `TuringMachine::define_states`: inserts each state keyed by its id
(later duplicates overwrite earlier ones). -/
def TuringMachine.define_states (m : TuringMachine) (program_states : List ProgramState) :
    TuringMachine :=
  { m with states := program_states.foldl insertState m.states }

/-- `TuringMachine::set_initial_state`: errors when the id is not a
registered state, otherwise records it. -/
def TuringMachine.set_initial_state (m : TuringMachine) (state_id : Nat) :
    Except String Unit × TuringMachine :=
  match m.states state_id with
  | none =>
      (Except.error ("ERROR: state with id `" ++ toString state_id ++ "` is not defined"), m)
  | some _ => (Except.ok (), { m with initial_state := some state_id })

/-- The loop body of `TuringMachine::validate_transition_rules`:
`states_used` tracks, per `from_state` id, the symbols already seen. -/
def validate_go (m : TuringMachine) (states_used : Nat → Option (List Symbol)) :
    List TransitionRule → Except String Unit
  | [] => Except.ok ()
  | t :: rest =>
    match m.states t.from_state.id with
    | none =>
        Except.error ("ERROR: State with id `" ++ toString t.from_state.id ++ "` does not exist")
    | some _ =>
      let already_mapped_symbols :=
        match states_used t.from_state.id with
        | none => ([] : List Symbol)
        | some l => l
      if t.from_symbol ∈ already_mapped_symbols then
        Except.error ("ERROR: State with id `" ++ toString t.from_state.id ++
          "` is already bound to a transition rule as a `from_state`")
      else
        validate_go m
          (fun k => if k = t.from_state.id then
              some (already_mapped_symbols ++ [t.from_symbol])
            else states_used k)
          rest

/-- `TuringMachine::validate_transition_rules`. -/
def TuringMachine.validate_transition_rules (m : TuringMachine)
    (transition_rules : List TransitionRule) : Except String Unit :=
  validate_go m (fun _ => none) transition_rules

/-- Installing one rule: create the inner map for `from_state.id` if
missing, then insert the rule keyed by `from_symbol`. -/
def installRule (tt : Nat → Option (Symbol → Option TransitionRule))
    (t : TransitionRule) : Nat → Option (Symbol → Option TransitionRule) :=
  let inner :=
    match tt t.from_state.id with
    | none => fun _ => (none : Option TransitionRule)
    | some f => f
  fun k =>
    if k = t.from_state.id then
      some (fun s => if s = t.from_symbol then some t else inner s)
    else tt k

/-- `TuringMachine::define_transition_table`: validates the whole batch,
then installs every rule. -/
def TuringMachine.define_transition_table (m : TuringMachine)
    (transition_rules : List TransitionRule) : Except String Unit × TuringMachine :=
  match m.validate_transition_rules transition_rules with
  | Except.error e => (Except.error e, m)
  | Except.ok () =>
      (Except.ok (),
        { m with transition_table := transition_rules.foldl installRule m.transition_table })

/-- `TuringMachine::get_transition_rule`: the outer lookup is `unwrap`ped
in the source, so a missing outer entry is a panic (`none`); a present
outer entry yields the inner lookup result. -/
def TuringMachine.get_transition_rule (m : TuringMachine) (state_id : Nat)
    (symbol : Symbol) : Option (Option TransitionRule) :=
  match m.transition_table state_id with
  | none => none
  | some inner => some (inner symbol)

/-- `TuringMachine::get_head_value`: panics (`none`) when the word index
is out of bounds; the bit index `head % USIZE_BIT_SIZE` is always in
range. -/
def TuringMachine.get_head_value (m : TuringMachine) : Option Symbol :=
  match m.tape.get? (m.head / USIZE_BIT_SIZE) with
  | none => none
  | some cell =>
    match get_bit cell (m.head % USIZE_BIT_SIZE) with
    | 0 => some Symbol.Zero
    | 1 => some Symbol.One
    | _ => none

/-- `TuringMachine::move_head`:
`self.head = (self.head as isize + direction as isize) as usize`, i.e.
addition of the direction's two's-complement offset modulo 2^64.  No
bounds check is performed. -/
def TuringMachine.move_head (m : TuringMachine) (direction : Direction) :
    TuringMachine :=
  { m with head := (m.head + direction.offset) % 2 ^ USIZE_BIT_SIZE }

/-- `TuringMachine::set_head_value`: panics (`none`) when the word index
is out of bounds, otherwise sets or clears the addressed bit. -/
def TuringMachine.set_head_value (m : TuringMachine) (value : Symbol) :
    Option TuringMachine :=
  match m.tape.get? (m.head / USIZE_BIT_SIZE) with
  | none => none
  | some cell =>
    let bit_idx := m.head % USIZE_BIT_SIZE
    let cell' :=
      match value with
      | Symbol.Zero => unset_bit cell bit_idx
      | Symbol.One => set_bit cell bit_idx
    some { m with tape := m.tape.set (m.head / USIZE_BIT_SIZE) cell' }

/-- Writing one chunk into one word.  `bit_idx = head % USIZE_BIT_SIZE + j`
is taken verbatim from the source; when it reaches the word width the
source's `USIZE_BIT_SIZE - bit_idx - 1` underflows (a panic, `none`). -/
def writeCell (headMod : Nat) (cell : Nat) : List Symbol → Nat → Option Nat
  | [], _ => some cell
  | s :: rest, j =>
    let bit_idx := headMod + j
    if bit_idx < USIZE_BIT_SIZE then
      writeCell headMod
        (match s with
         | Symbol.Zero => unset_bit cell bit_idx
         | Symbol.One => set_bit cell bit_idx)
        rest (j + 1)
    else none

/-- The chunk loop of `TuringMachine::write_to_tape`: chunk `i` is written
into the word at `(head + i * USIZE_BIT_SIZE) / USIZE_BIT_SIZE`; an
out-of-bounds word index is a panic (`none`). -/
def writeChunks (head : Nat) (tape : List Nat) (cells : List Symbol) (i : Nat) :
    Option (List Nat) :=
  match cells with
  | [] => some tape
  | c :: cs =>
    match tape.get? ((head + i * USIZE_BIT_SIZE) / USIZE_BIT_SIZE) with
    | none => none
    | some cell =>
      match writeCell (head % USIZE_BIT_SIZE) cell ((c :: cs).take USIZE_BIT_SIZE) 0 with
      | none => none
      | some cell' =>
          writeChunks head (tape.set ((head + i * USIZE_BIT_SIZE) / USIZE_BIT_SIZE) cell')
            ((c :: cs).drop USIZE_BIT_SIZE) (i + 1)
termination_by cells.length
decreasing_by simp [List.length_drop, USIZE_BIT_SIZE]; omega

/-- `TuringMachine::write_to_tape`: the source asserts
`cells.len() > self.tape.len()` (the number of *words*), so any shorter
batch panics (`none`); otherwise the chunks are written starting at the
head.  A panic anywhere is modelled as `none` for the whole call. -/
def TuringMachine.write_to_tape (m : TuringMachine) (cells : List Symbol) :
    Option TuringMachine :=
  if cells.length > m.tape.length then
    match writeChunks m.head m.tape cells 0 with
    | none => none
    | some tape' => some { m with tape := tape' }
  else none

/-- Outcome of `run`: `Ok(state)`, `Err(msg)`, a Rust panic, or fuel
exhaustion (the source loop has no step limit). -/
inductive RunResult
  | ok (s : State)
  | err (msg : String)
  | panic
  | timeout
deriving DecidableEq

/-- The `loop` in `TuringMachine::run`, with explicit fuel. -/
def runLoop : Nat → TuringMachine → State → RunResult × TuringMachine
  | 0, m, _ => (RunResult.timeout, m)
  | fuel + 1, m, current_state =>
    match current_state with
    | State.ProgramState p =>
      match m.get_head_value with
      | none => (RunResult.panic, m)
      | some current_symbol =>
        match m.get_transition_rule p.id current_symbol with
        | none => (RunResult.panic, m)
        | some none => (RunResult.ok State.Halt, m)
        | some (some t) =>
          match m.set_head_value t.new_symbol with
          | none => (RunResult.panic, m)
          | some m' => runLoop fuel (m'.move_head t.head_move_dir) t.to_state
    | s => (RunResult.ok s, m)

/-- `TuringMachine::run`: fails when no initial state is set; panics when
the recorded initial state is not a registered state (`unwrap`); otherwise
enters the loop. -/
def TuringMachine.run (fuel : Nat) (m : TuringMachine) : RunResult × TuringMachine :=
  match m.initial_state with
  | none => (RunResult.err "ERROR: initial state is not set", m)
  | some sid =>
    match m.states sid with
    | none => (RunResult.panic, m)
    | some p => runLoop fuel m (State.ProgramState p)

/-- A machine with one registered state, that state initial, and an empty
transition table. -/
def emptyTableMachine : TuringMachine :=
  (TuringMachine.set_initial_state
    (TuringMachine.define_states TuringMachine.new [⟨1⟩]) 1).snd

/-! ### Helper lemmas -/

theorem list_get?_set_self :
    ∀ (l : List Nat) (i x : Nat), i < l.length → (l.set i x).get? i = some x
  | _ :: _, 0, _, _ => rfl
  | _ :: l, i + 1, x, h => list_get?_set_self l i x (Nat.lt_of_succ_lt_succ h)

theorem list_get?_lt :
    ∀ (l : List Nat) (i : Nat), i < l.length → ∃ x, l.get? i = some x
  | a :: _, 0, _ => ⟨a, rfl⟩
  | _ :: l, i + 1, h => list_get?_lt l i (Nat.lt_of_succ_lt_succ h)

theorem get_bit_testBit (c i : Nat) :
    get_bit c i = if Nat.testBit c (USIZE_BIT_SIZE - i - 1) then 1 else 0 := by
  unfold get_bit
  rw [Nat.and_one_is_mod, Nat.shiftRight_eq_div_pow, Nat.testBit_to_div_mod]
  rcases Nat.mod_two_eq_zero_or_one (c / 2 ^ (USIZE_BIT_SIZE - i - 1)) with h | h <;> simp [h]

theorem get_bit_set_bit (c i : Nat) : get_bit (set_bit c i) i = 1 := by
  rw [get_bit_testBit]
  unfold set_bit
  rw [Nat.shiftLeft_eq, one_mul, Nat.testBit_lor, Nat.testBit_two_pow_self]
  simp

theorem get_bit_unset_bit (c i : Nat) : get_bit (unset_bit c i) i = 0 := by
  rw [get_bit_testBit]
  unfold unset_bit usizeNot
  rw [Nat.shiftLeft_eq, one_mul, Nat.testBit_land, Nat.testBit_xor,
    Nat.testBit_two_pow_self, Nat.testBit_two_pow_sub_one]
  have h : USIZE_BIT_SIZE - i - 1 < USIZE_BIT_SIZE := by unfold USIZE_BIT_SIZE; omega
  simp [h]

/-! ### Claim theorems -/

/-- C1: with a state registered, the initial state set, and an empty
transition table, `run` does not return `Halt` on the first step as the
spec requires: `get_transition_rule` unwraps the outer `HashMap` lookup,
which is `None` for a state with no installed rules, so the run panics. -/
theorem run_with_empty_table_panics :
    (TuringMachine.run 1 emptyTableMachine).fst = RunResult.panic ∧
    (TuringMachine.run 1 emptyTableMachine).fst ≠ RunResult.ok State.Halt := by
  exact ⟨rfl, by decide⟩

/-- C3: the bulk write does not accept every fitting sequence: the
source's reversed assertion `cells.len() > self.tape.len()` makes the
machine panic on a two-symbol write, even though two symbols fit easily
within the remaining capacity from the head. -/
theorem write_fitting_sequence_panics :
    TuringMachine.write_to_tape TuringMachine.new [Symbol.Zero, Symbol.One] = none ∧
    TuringMachine.new.head + 2 ≤ USIZE_BIT_SIZE * TuringMachine.new.tape.length := by
  exact ⟨rfl, by decide⟩

/-- C4: the order-preserving write/read-back round trip is impossible for
small sequences: a one-symbol bulk write panics on the reversed length
assertion although one symbol fits within remaining capacity. -/
theorem write_single_symbol_panics :
    TuringMachine.write_to_tape TuringMachine.new [Symbol.One] = none ∧
    TuringMachine.new.head + 1 ≤ USIZE_BIT_SIZE * TuringMachine.new.tape.length := by
  exact ⟨rfl, by decide⟩

/-- C6: `run` on a machine whose initial state was never set fails with
the "no initial state" error and returns the machine unchanged (in
particular the tape is unchanged). -/
theorem run_without_initial_state (fuel : Nat) (m : TuringMachine)
    (h : m.initial_state = none) :
    TuringMachine.run fuel m = (RunResult.err "ERROR: initial state is not set", m) := by
  unfold TuringMachine.run
  rw [h]

/-- Witness for C6 at the freshly constructed machine. -/
theorem run_without_initial_state_witness :
    TuringMachine.run 0 TuringMachine.new =
      (RunResult.err "ERROR: initial state is not set", TuringMachine.new) :=
  run_without_initial_state 0 TuringMachine.new rfl

/-- C7: `run` is deterministic: machines that agree on tape, head,
initial state, registered states and transition table produce the same
result (status and final machine, hence final tape). -/
theorem run_deterministic (fuel : Nat) (m1 m2 : TuringMachine)
    (htape : m1.tape = m2.tape) (hhead : m1.head = m2.head)
    (hinit : m1.initial_state = m2.initial_state)
    (hstates : m1.states = m2.states)
    (htable : m1.transition_table = m2.transition_table) :
    TuringMachine.run fuel m1 = TuringMachine.run fuel m2 := by
  cases m1
  cases m2
  simp only at htape hhead hinit hstates htable
  subst htape hhead hinit hstates htable
  rfl

/-- C8: for every machine whose head addresses an in-bounds cell, writing
either symbol at the head and reading the head cell back returns exactly
that symbol, regardless of the cell's previous contents. -/
theorem set_then_get (m : TuringMachine) (v : Symbol)
    (h : m.head < USIZE_BIT_SIZE * m.tape.length) :
    ∃ m', TuringMachine.set_head_value m v = some m' ∧
      TuringMachine.get_head_value m' = some v := by
  have hS : 0 < USIZE_BIT_SIZE := by unfold USIZE_BIT_SIZE; omega
  have hlt : m.head / USIZE_BIT_SIZE < m.tape.length := by
    rw [Nat.div_lt_iff_lt_mul hS, Nat.mul_comm]
    exact h
  obtain ⟨cell, hcell⟩ := list_get?_lt m.tape _ hlt
  cases v with
  | Zero =>
      refine ⟨{ m with tape := m.tape.set (m.head / USIZE_BIT_SIZE) (unset_bit cell (m.head % USIZE_BIT_SIZE)) }, ?_, ?_⟩
      · unfold TuringMachine.set_head_value
        rw [hcell]
      · unfold TuringMachine.get_head_value
        dsimp only
        rw [list_get?_set_self _ _ _ hlt]
        simp [get_bit_unset_bit]
  | One =>
      refine ⟨{ m with tape := m.tape.set (m.head / USIZE_BIT_SIZE) (set_bit cell (m.head % USIZE_BIT_SIZE)) }, ?_, ?_⟩
      · unfold TuringMachine.set_head_value
        rw [hcell]
      · unfold TuringMachine.get_head_value
        dsimp only
        rw [list_get?_set_self _ _ _ hlt]
        simp [get_bit_set_bit]

/-- Witness for C8 on the fresh machine. -/
theorem set_then_get_witness :
    ∃ m', TuringMachine.set_head_value TuringMachine.new Symbol.One = some m' ∧
      TuringMachine.get_head_value m' = some Symbol.One :=
  set_then_get TuringMachine.new Symbol.One (by decide)

/-- C5: whenever `define_transition_table` rejects its input, the
machine it returns carries exactly the transition table it had before the
call — no rule of the rejected batch is installed. -/
theorem define_transition_table_reject_unchanged (m : TuringMachine)
    (rules : List TransitionRule) (e : String)
    (h : (TuringMachine.define_transition_table m rules).fst = Except.error e) :
    (TuringMachine.define_transition_table m rules).snd.transition_table =
      m.transition_table := by
  unfold TuringMachine.define_transition_table at h ⊢
  cases hv : TuringMachine.validate_transition_rules m rules with
  | error e' => rfl
  | ok u => cases u; rw [hv] at h; simp at h

/-- Witness for C5: a batch whose single rule references the unregistered
state 7 is rejected and the (empty) table is unchanged. -/
theorem define_transition_table_reject_unchanged_witness :
    (TuringMachine.define_transition_table TuringMachine.new
        [⟨⟨7⟩, Symbol.Zero, State.Halt, Symbol.Zero, Direction.Stay⟩]).snd.transition_table =
      TuringMachine.new.transition_table :=
  define_transition_table_reject_unchanged TuringMachine.new
    [⟨⟨7⟩, Symbol.Zero, State.Halt, Symbol.Zero, Direction.Stay⟩]
    ("ERROR: State with id `7` does not exist") (by rfl)

/-- Validation of a two-rule batch whose rules share their `from_state`
id: it fails exactly when the two `from_symbol`s coincide — uniqueness is
keyed by the (state, symbol) pair, not by the state alone. -/
theorem validate_pair (m : TuringMachine) (r1 r2 : TransitionRule) (p : ProgramState)
    (hid : r2.from_state.id = r1.from_state.id)
    (hreg : m.states r1.from_state.id = some p) :
    TuringMachine.validate_transition_rules m [r1, r2] =
      if r2.from_symbol = r1.from_symbol then
        Except.error ("ERROR: State with id `" ++ toString r2.from_state.id ++
          "` is already bound to a transition rule as a `from_state`")
      else Except.ok () := by
  unfold TuringMachine.validate_transition_rules
  unfold validate_go
  rw [hreg]
  simp only [List.not_mem_nil, if_false]
  unfold validate_go
  rw [hid, hreg]
  simp only [if_pos rfl, List.nil_append, List.mem_singleton]
  by_cases hs : r2.from_symbol = r1.from_symbol
  · simp [hs]
  · simp [hs, validate_go]

/-- C2 counterexample: a batch holding a `Zero`-rule and a `One`-rule for
the single registered state 1 is accepted by `define_transition_table`,
so the batch is not rejected on a shared `from_state` alone. -/
theorem both_symbol_rules_for_one_state_accepted :
    (TuringMachine.define_transition_table
        (TuringMachine.define_states TuringMachine.new [⟨1⟩])
        [⟨⟨1⟩, Symbol.Zero, State.Halt, Symbol.Zero, Direction.Stay⟩,
         ⟨⟨1⟩, Symbol.One, State.Halt, Symbol.One, Direction.Stay⟩]).fst =
      Except.ok () := by
  rfl

/-- C2 (amended): `define_transition_table` on a two-rule batch sharing a
registered `from_state` rejects exactly when the rules also share their
`from_symbol`; a state may have independent rules for each symbol. -/
theorem define_transition_table_keyed_by_state_and_symbol
    (m : TuringMachine) (r1 r2 : TransitionRule) (p : ProgramState)
    (hid : r2.from_state.id = r1.from_state.id)
    (hreg : m.states r1.from_state.id = some p) :
    (TuringMachine.define_transition_table m [r1, r2]).fst =
      if r2.from_symbol = r1.from_symbol then
        Except.error ("ERROR: State with id `" ++ toString r2.from_state.id ++
          "` is already bound to a transition rule as a `from_state`")
      else Except.ok () := by
  unfold TuringMachine.define_transition_table
  rw [validate_pair m r1 r2 p hid hreg]
  by_cases hs : r2.from_symbol = r1.from_symbol
  · rw [if_pos hs]
  · rw [if_neg hs]

/-- Witness for the amended C2: with state 5 registered, a `One`-rule and
a `Zero`-rule for state 5 are accepted as one batch. -/
theorem define_transition_table_keyed_by_state_and_symbol_witness :
    (TuringMachine.define_transition_table
        (TuringMachine.define_states TuringMachine.new [⟨5⟩])
        [⟨⟨5⟩, Symbol.One, State.Halt, Symbol.One, Direction.Stay⟩,
         ⟨⟨5⟩, Symbol.Zero, State.Halt, Symbol.Zero, Direction.Stay⟩]).fst =
      Except.ok () := by
  have h := define_transition_table_keyed_by_state_and_symbol
    (TuringMachine.define_states TuringMachine.new [⟨5⟩])
    ⟨⟨5⟩, Symbol.One, State.Halt, Symbol.One, Direction.Stay⟩
    ⟨⟨5⟩, Symbol.Zero, State.Halt, Symbol.Zero, Direction.Stay⟩
    ⟨5⟩ rfl rfl
  simpa using h

/-- C9: `move_head` adds the direction's two's-complement offset modulo
2^64 with no bounds check: moving `Left` from head 0 yields `2^64 - 1`,
and the head-within-capacity invariant is not preserved. -/
theorem move_head_no_bounds_check :
    (∀ (m : TuringMachine) (d : Direction),
        (TuringMachine.move_head m d).head =
          (m.head + Direction.offset d) % 2 ^ USIZE_BIT_SIZE) ∧
    (∀ m : TuringMachine, m.head = 0 →
        (TuringMachine.move_head m Direction.Left).head = 2 ^ USIZE_BIT_SIZE - 1) ∧
    (∃ m : TuringMachine, m.head < USIZE_BIT_SIZE * m.tape.length ∧
        ¬ (TuringMachine.move_head m Direction.Left).head <
          USIZE_BIT_SIZE * m.tape.length) := by
  refine ⟨fun m d => rfl, ?_, ?_⟩
  · intro m h0
    unfold TuringMachine.move_head
    rw [h0]
    simp only [Direction.offset, Nat.zero_add]
    exact Nat.mod_eq_of_lt (by unfold USIZE_BIT_SIZE; omega)
  · refine ⟨{ TuringMachine.new with head := 0 }, by decide, ?_⟩
    unfold TuringMachine.move_head
    simp only [Direction.offset, Nat.zero_add]
    rw [Nat.mod_eq_of_lt (by unfold USIZE_BIT_SIZE; omega)]
    decide

/-- Witness for C9: moving `Left` from head 0 lands at `2^64 - 1`. -/
theorem move_head_no_bounds_check_witness :
    (TuringMachine.move_head { TuringMachine.new with head := 0 }
        Direction.Left).head = 2 ^ USIZE_BIT_SIZE - 1 :=
  move_head_no_bounds_check.2.1 { TuringMachine.new with head := 0 } rfl

/-- Witness for C7. -/
theorem run_deterministic_witness :
    TuringMachine.run 1 TuringMachine.new = TuringMachine.run 1 TuringMachine.new :=
  run_deterministic 1 TuringMachine.new TuringMachine.new rfl rfl rfl rfl rfl

/-- The invariant of C10: a recorded initial state is always a key of the
registered-states map. -/
def InitInv (m : TuringMachine) : Prop :=
  ∀ sid, m.initial_state = some sid → ∃ p, m.states sid = some p

theorem initInv_of_fields (m m' : TuringMachine)
    (hs : m'.states = m.states) (hi : m'.initial_state = m.initial_state) :
    InitInv m → InitInv m' := by
  intro h sid hsid
  rw [hs]
  exact h sid (hi ▸ hsid)

theorem foldl_insertState_some (ps : List ProgramState) :
    ∀ (st : Nat → Option ProgramState) (sid : Nat),
      (∃ p, st sid = some p) → ∃ q, (ps.foldl insertState st) sid = some q := by
  induction ps with
  | nil => intro st sid h; simpa using h
  | cons s ps ih =>
    intro st sid h
    rw [List.foldl_cons]
    apply ih
    unfold insertState
    by_cases hk : sid = s.id
    · exact ⟨s, by simp [hk]⟩
    · simpa [hk] using h

theorem set_head_value_fields (m : TuringMachine) (v : Symbol) (m' : TuringMachine)
    (h : TuringMachine.set_head_value m v = some m') :
    m'.states = m.states ∧ m'.initial_state = m.initial_state := by
  unfold TuringMachine.set_head_value at h
  cases hg : m.tape.get? (m.head / USIZE_BIT_SIZE) with
  | none => rw [hg] at h; exact absurd h (by simp)
  | some cell =>
    rw [hg] at h
    injection h with h'
    rw [← h']
    exact ⟨rfl, rfl⟩

theorem write_to_tape_fields (m : TuringMachine) (cells : List Symbol) (m' : TuringMachine)
    (h : TuringMachine.write_to_tape m cells = some m') :
    m'.states = m.states ∧ m'.initial_state = m.initial_state := by
  unfold TuringMachine.write_to_tape at h
  by_cases hlen : cells.length > m.tape.length
  · rw [if_pos hlen] at h
    cases hw : writeChunks m.head m.tape cells 0 with
    | none => rw [hw] at h; exact absurd h (by simp)
    | some tape' =>
      rw [hw] at h
      injection h with h'
      rw [← h']
      exact ⟨rfl, rfl⟩
  · rw [if_neg hlen] at h
    exact absurd h (by simp)

theorem runLoop_fields (fuel : Nat) :
    ∀ (m : TuringMachine) (s : State),
      (runLoop fuel m s).snd.states = m.states ∧
      (runLoop fuel m s).snd.initial_state = m.initial_state := by
  induction fuel with
  | zero => intro m s; exact ⟨rfl, rfl⟩
  | succ n ih =>
    intro m s
    cases s with
    | Termination => exact ⟨rfl, rfl⟩
    | Halt => exact ⟨rfl, rfl⟩
    | ProgramState p =>
      cases hg : m.get_head_value with
      | none => simp [runLoop, hg]
      | some sym =>
        cases hr : m.get_transition_rule p.id sym with
        | none => simp [runLoop, hg, hr]
        | some r =>
          cases r with
          | none => simp [runLoop, hg, hr]
          | some t =>
            cases hw : m.set_head_value t.new_symbol with
            | none => simp [runLoop, hg, hr, hw]
            | some m' =>
              obtain ⟨hs', hi'⟩ := set_head_value_fields m t.new_symbol m' hw
              obtain ⟨hs'', hi''⟩ := ih (m'.move_head t.head_move_dir) t.to_state
              have hms : (m'.move_head t.head_move_dir).states = m'.states := rfl
              have hmi : (m'.move_head t.head_move_dir).initial_state =
                m'.initial_state := rfl
              simp [runLoop, hg, hr, hw, hs'', hi'', hms, hmi, hs', hi']

/-- C10: the "recorded initial state is a registered state" invariant
holds for a new machine and is preserved by every public operation
(`define_states` only inserts, `set_initial_state` checks membership
before recording, nothing removes states); consequently the lookup of the
initial state at the start of `run` never fails and `run` proceeds into
its loop. -/
theorem initial_state_invariant :
    InitInv TuringMachine.new ∧
    (∀ (m : TuringMachine) (ps : List ProgramState),
        InitInv m → InitInv (TuringMachine.define_states m ps)) ∧
    (∀ (m : TuringMachine) (sid : Nat),
        InitInv m → InitInv (TuringMachine.set_initial_state m sid).snd) ∧
    (∀ (m : TuringMachine) (rules : List TransitionRule),
        InitInv m → InitInv (TuringMachine.define_transition_table m rules).snd) ∧
    (∀ (m : TuringMachine) (cells : List Symbol) (m' : TuringMachine),
        InitInv m → TuringMachine.write_to_tape m cells = some m' → InitInv m') ∧
    (∀ (m : TuringMachine) (d : Direction),
        InitInv m → InitInv (TuringMachine.move_head m d)) ∧
    (∀ (m : TuringMachine) (v : Symbol) (m' : TuringMachine),
        InitInv m → TuringMachine.set_head_value m v = some m' → InitInv m') ∧
    (∀ (fuel : Nat) (m : TuringMachine),
        InitInv m → InitInv (TuringMachine.run fuel m).snd) ∧
    (∀ (fuel : Nat) (m : TuringMachine) (sid : Nat),
        InitInv m → m.initial_state = some sid →
          ∃ p, m.states sid = some p ∧
            TuringMachine.run fuel m = runLoop fuel m (State.ProgramState p)) := by
  refine ⟨?_, ?_, ?_, ?_, ?_, ?_, ?_, ?_, ?_⟩
  · intro sid h
    exact absurd h (by simp [TuringMachine.new])
  · intro m ps h sid hsid
    exact foldl_insertState_some ps m.states sid (h sid hsid)
  · intro m sid h
    unfold TuringMachine.set_initial_state
    cases hg : m.states sid with
    | none => exact h
    | some p =>
      intro sid' hsid'
      simp only at hsid'
      injection hsid' with h'
      exact ⟨p, h' ▸ hg⟩
  · intro m rules h
    unfold TuringMachine.define_transition_table
    cases hv : m.validate_transition_rules rules with
    | error e => exact h
    | ok u => cases u; exact fun sid hsid => h sid hsid
  · intro m cells m' h hw
    obtain ⟨hs, hi⟩ := write_to_tape_fields m cells m' hw
    exact initInv_of_fields m m' hs hi h
  · intro m d h
    exact initInv_of_fields m (m.move_head d) rfl rfl h
  · intro m v m' h hw
    obtain ⟨hs, hi⟩ := set_head_value_fields m v m' hw
    exact initInv_of_fields m m' hs hi h
  · intro fuel m h
    cases hi : m.initial_state with
    | none => simpa [TuringMachine.run, hi] using h
    | some sid =>
      obtain ⟨p, hp⟩ := h sid hi
      have he : TuringMachine.run fuel m = runLoop fuel m (State.ProgramState p) := by
        unfold TuringMachine.run
        rw [hi]
        simp [hp]
      rw [he]
      obtain ⟨hs', hi'⟩ := runLoop_fields fuel m (State.ProgramState p)
      exact initInv_of_fields m _ hs' hi' h
  · intro fuel m sid h hi
    obtain ⟨p, hp⟩ := h sid hi
    refine ⟨p, hp, ?_⟩
    unfold TuringMachine.run
    rw [hi]
    simp [hp]

/-- Witness for C10: the invariant holds after registering state 1 on a
fresh machine and then setting it as the initial state. -/
theorem initial_state_invariant_witness :
    InitInv (TuringMachine.set_initial_state
      (TuringMachine.define_states TuringMachine.new [⟨1⟩]) 1).snd :=
  initial_state_invariant.2.2.1
    (TuringMachine.define_states TuringMachine.new [⟨1⟩]) 1
    (initial_state_invariant.2.1 TuringMachine.new [⟨1⟩]
      (fun sid h => absurd h (by simp [TuringMachine.new])))

end TMSpec
